import Mathlib

/-!
Verification of the f5-cloud-libs cross-process coordination subsystem.

This file shallowly embeds, in Lean 4:

* the cohort supervisor of `scripts/azure/runScripts.js` (`spawnScript`, the
  child-exit handler, the reboot subscription, and the `--script` argument
  tokenization of `run`), as a small-step semantics over an explicit
  supervisor state driven by child-exit / reboot events, mirroring Node's
  single-threaded event loop (each handler runs atomically);
* JavaScript string primitives (`indexOf`, `substring`, `trim`,
  `split(/\s+/)`) over `List Char`, exactly as the source uses them;
* the Signal Store (`lib/ipc.js`), modelled from the spec (its tests live in
  `test/lib/ipcTests.js` but the module itself is not among the sources);
* the error-signal handler of the onboarding script (`onboard.js`).

Theorems at the bottom settle the behavioural claims about retries, cohort
draining, reboot short-circuit, argument tokenization, signal broadcast,
idempotent raise, error propagation, and the onboarding done-signal-on-error
behaviour.
-/

namespace JsStr

/-- Whitespace for the purposes of the JavaScript regular expression `\s`
(the characters that actually occur in the supervisor's inputs: space, tab,
and line terminators, plus vertical tab and form feed). -/
def jsIsWs (c : Char) : Bool :=
  c = ' ' || c = '\t' || c = '\n' || c = '\r' || c = Char.ofNat 11 || c = Char.ofNat 12

/-- The single-quote character `'` (avoids a character literal). -/
def squote : Char := Char.ofNat 39

/-- Auxiliary state machine for `String.prototype.split(/\s+/)`.
`inRun` is true while we are inside a whitespace run whose token has already
been emitted; `acc` is the reversed current token. -/
def jsSplitWsGo : Bool → List Char → List Char → List (List Char)
  | _, acc, [] => [acc.reverse]
  | inRun, acc, c :: rest =>
    if jsIsWs c then
      if inRun then jsSplitWsGo true acc rest
      else acc.reverse :: jsSplitWsGo true [] rest
    else jsSplitWsGo false (c :: acc) rest

/-- JavaScript `s.split(/\s+/)`: pieces of `s` between maximal whitespace
runs, including an empty piece when a run touches either end of the string
(e.g. `" a  b "` splits to `["", "a", "b", ""]`, `""` splits to `[""]`). -/
def jsSplitWs (s : List Char) : List (List Char) :=
  jsSplitWsGo false [] s

/-- JavaScript `s.trim()` (restricted to the `jsIsWs` characters). -/
def jsTrim (s : List Char) : List Char :=
  ((s.dropWhile jsIsWs).reverse.dropWhile jsIsWs).reverse

/-- `pat` is an initial segment of `s`. -/
def leadsList : List Char → List Char → Bool
  | [], _ => true
  | _ :: _, [] => false
  | p :: ps, c :: cs => p = c && leadsList ps cs

/-- JavaScript `s.indexOf(pat, start)`: the least index `i ≥ max(start, 0)`
at which `pat` occurs in `s`, or `-1` when there is none. -/
def jsIndexOf (s pat : List Char) (start : Int) : Int :=
  match (List.range (s.length + 1)).find?
      (fun i => decide (start.toNat ≤ i) && leadsList pat (s.drop i)) with
  | some i => (i : Int)
  | none => -1

/-- JavaScript `s.substring(a, b)`: clamps both arguments into
`[0, s.length]` and swaps them when out of order. -/
def jsSubstring (s : List Char) (a b : Int) : List Char :=
  let len : Int := s.length
  let a' := min (max a 0) len
  let b' := min (max b 0) len
  let lo := min a' b'
  let hi := max a' b'
  (s.drop lo.toNat).take (hi - lo).toNat

end JsStr

namespace RunScripts

open JsStr

/-- `MAX_TRIES` from runScripts.js line 26. -/
def MAX_TRIES : Nat := 3

/-- The `'--cl-args'` token searched for in a `--script` argument string. -/
def clArgsTok : List Char := "--cl-args".data

/-- Tokenization of one `--script` argument string (runScripts.js `run`,
lines 194-224): when `'--cl-args'` occurs, push `'--cl-args'`, then the
single-quoted value following it as one entry, then the whitespace-split
tokens before `--cl-args`, then those after the closing quote; otherwise
split the whole string on whitespace (no trim in that branch). -/
def parseScriptArgs (scriptArgs : List Char) : List (List Char) :=
  let clArgIndex := jsIndexOf scriptArgs clArgsTok 0
  if clArgIndex ≠ -1 then
    let clArgStart := jsIndexOf scriptArgs [squote] clArgIndex
    let clArgEnd := jsIndexOf scriptArgs [squote] (clArgStart + 1)
    let quoted := jsSubstring scriptArgs (clArgStart + 1) clArgEnd
    let pre :=
      if clArgIndex > 0 then jsSplitWs (jsTrim (jsSubstring scriptArgs 0 clArgIndex))
      else []
    let post :=
      if clArgEnd < (scriptArgs.length : Int) - 1 then
        jsSplitWs (jsTrim (jsSubstring scriptArgs (clArgEnd + 1) scriptArgs.length))
      else []
    clArgsTok :: quoted :: (pre ++ post)
  else
    jsSplitWs scriptArgs

/-- One supervised child process: the arguments `spawnScript` was called
with, plus its attempt counter `tryNum`. -/
structure Child where
  module : String
  arrayArgs : Option (List String)
  stringArgs : Option String
  tryNum : Nat
deriving Repr, DecidableEq

/-- Log lines emitted by the supervisor (runScripts.js lines 42, 60, 65, 72,
236). -/
inductive LogEvent where
  | spawning (module : String) (args : List String)
  | exitted (module : String) (code : Option Int) (signal : Option String)
  | badExitRetry (module : String)
  | allExitted
  | rebootExit
deriving Repr, DecidableEq

/-- Supervisor state: the `waiting` counter (a JS number), the live
children, the log, the number of `childProcess.fork` calls made, and the
supervisor's own exit code once `process.exit` has run. -/
structure SupSt where
  waiting : Int
  children : List Child
  log : List LogEvent
  spawnCount : Nat
  exited : Option Int
deriving Repr, DecidableEq

/-- Argument list of one attempt (runScripts.js lines 29-40):
`arrayArgs.slice()` or `[]`, then — when `stringArgs` is truthy (a JS empty
string is falsy) — the whitespace tokens of `stringArgs.trim()`. -/
def attemptArgs (arrayArgs : Option (List String)) (stringArgs : Option String) : List String :=
  (arrayArgs.getD []) ++
    match stringArgs with
    | some s =>
      if s = "" then []
      else (jsSplitWs (jsTrim s.data)).map (fun t => String.mk t)
    | none => []

/-- `spawnScript(module, arrayArgs, stringArgs, tryNum)` (runScripts.js
lines 28-53, up to and including `waiting++`): logs, forks the child, and
increments the outstanding count.  The exit handler it installs is
`onChildExit` below, driven by the event loop. -/
def spawnScript (st : SupSt) (module : String) (arrayArgs : Option (List String))
    (stringArgs : Option String) (tryNum : Nat := 1) : SupSt :=
  { st with
    log := st.log ++ [LogEvent.spawning module (attemptArgs arrayArgs stringArgs)]
    children := st.children ++ [⟨module, arrayArgs, stringArgs, tryNum⟩]
    spawnCount := st.spawnCount + 1
    waiting := st.waiting + 1 }

/-- The retry test of runScripts.js line 64:
`code !== null && code !== 0 && tryNum < MAX_TRIES`.  A `none` code models
JS `null` (death by signal) and never retries. -/
def retryCond (code : Option Int) (tryNum : Nat) : Bool :=
  match code with
  | some k => decide (k ≠ 0) && decide (tryNum < MAX_TRIES)
  | none => false

/-- The `'exit'` handler of runScripts.js lines 59-75, for the live child at
index `i` exiting with `code` (`none` models JS `null`, i.e. death by
signal).  Retries only when `code !== null && code !== 0 && tryNum <
MAX_TRIES`; then `waiting--`; then `process.exit()` (exit code 0) when
`waiting` has reached zero. -/
def onChildExit (st : SupSt) (i : Nat) (code : Option Int) (signal : Option String) : SupSt :=
  match st.children.get? i with
  | none => st
  | some c =>
    let st1 : SupSt :=
      { st with
        children := st.children.eraseIdx i
        log := st.log ++ [LogEvent.exitted c.module code signal] }
    let st2 : SupSt :=
      if retryCond code c.tryNum then
        spawnScript { st1 with log := st1.log ++ [LogEvent.badExitRetry c.module] }
          c.module c.arrayArgs c.stringArgs (c.tryNum + 1)
      else st1
    let st3 : SupSt := { st2 with waiting := st2.waiting - 1 }
    if st3.waiting = 0 then
      { st3 with log := st3.log ++ [LogEvent.allExitted], exited := some 0 }
    else st3

/-- The handler subscribed via `ipc.once('REBOOT')` (runScripts.js lines
234-238): log and `process.exit()` (exit code 0). -/
def onReboot (st : SupSt) : SupSt :=
  { st with log := st.log ++ [LogEvent.rebootExit], exited := some 0 }

/-- Events delivered by the Node event loop to the supervisor. -/
inductive Event where
  | childExit (i : Nat) (code : Option Int) (signal : Option String)
  | reboot
deriving Repr, DecidableEq

/-- One event-loop dispatch.  A process that has exited runs no further
handlers; the reboot handler only exists when `run` subscribed to the
REBOOT signal. -/
def step (rebootSubscribed : Bool) (st : SupSt) (e : Event) : SupSt :=
  if st.exited.isSome then st
  else
    match e with
    | Event.childExit i code signal => onChildExit st i code signal
    | Event.reboot => if rebootSubscribed then onReboot st else st

/-- Run the supervisor's event loop over a list of events. -/
def runTrace (rebootSubscribed : Bool) (st : SupSt) (events : List Event) : SupSt :=
  events.foldl (step rebootSubscribed) st

/-- The supervisor state before any worker is spawned. -/
def initSt : SupSt := ⟨0, [], [], 0, none⟩

/-- `e` is a child-exit notification (not a reboot observation). -/
def Event.isChildExit : Event → Prop
  | Event.childExit _ _ _ => True
  | Event.reboot => False

instance (e : Event) : Decidable e.isChildExit := by
  cases e <;> simp [Event.isChildExit] <;> infer_instance

/-- Drain invariant of the supervisor: the `waiting` counter equals the
number of live children, and once the process has exited the cohort is
empty.  Holds for every state built by spawning from `initSt` and is
preserved by child-exit dispatches. -/
def InvD (st : SupSt) : Prop :=
  st.waiting = (st.children.length : ℤ) ∧ (st.exited.isSome → st.children = [])

instance (st : SupSt) : Decidable (InvD st) := by
  unfold InvD; infer_instance

/-- JavaScript `argv.indexOf(tok, start)` on the argument vector, as an
`Option Nat`. -/
def idxOfFrom (argv : List String) (tok : String) (start : Nat) : Option Nat :=
  (List.range argv.length).find?
    (fun i => decide (start ≤ i) && decide (argv.get? i = some tok))

/-- The `--script` processing loop of `run` (runScripts.js lines 191-230):
for each `--script` occurrence, tokenize the following argument with the
`--cl-args` rule and spawn `runScript.js` with the resulting argument
list.  Returns `none` when a `--script` flag has no following argument
(JavaScript then throws reading `scriptArgs.indexOf`, landing in `run`'s
catch, so the REBOOT subscription that follows the loop never runs).
The `fuel` argument only bounds the recursion for Lean: successive
`--script` indices strictly increase and stay below `argv.length`, so with
`fuel = argv.length + 1` (as `runModel` passes) it is never exhausted. -/
def scriptLoop (argv : List String) : Nat → SupSt → Nat → Option SupSt
  | 0, _, _ => none
  | fuel + 1, st, argIndex =>
    match argv.get? (argIndex + 1) with
    | none => none
    | some s =>
      let st' := spawnScript st "runScript.js"
        (some ((parseScriptArgs s.data).map (fun t => String.mk t))) none
      match idxOfFrom argv "--script" (argIndex + 1) with
      | none => some st'
      | some j => scriptLoop argv fuel st' j

/-- The spawning and subscription phase of `run` (runScripts.js lines
174-238), after the filesystem/npm setup succeeded: spawn `onboard.js` and
`cluster.js` when requested, run the `--script` loop, then subscribe to
the REBOOT signal via `ipc.once('REBOOT')`.  Returns the supervisor state
and the number of REBOOT subscriptions made, or `none` when the script
loop threw (caught at line 241, skipping the subscription). -/
def runModel (argv : List String) : Option (SupSt × Nat) :=
  let st1 :=
    match idxOfFrom argv "--onboard" 0 with
    | some i => spawnScript initSt "onboard.js" none (argv.get? (i + 1))
    | none => initSt
  let st2 :=
    match idxOfFrom argv "--cluster" 0 with
    | some i => spawnScript st1 "cluster.js" none (argv.get? (i + 1))
    | none => st1
  match idxOfFrom argv "--script" 0 with
  | some i =>
    match scriptLoop argv (argv.length + 1) st2 i with
    | none => none
    | some st3 => some (st3, 1)
  | none => some (st2, 1)

end RunScripts

namespace Ipc

/-- Modelled from the spec: `lib/ipc.js` (the Signal Store) is not among
the source files — only its unit tests (`test/lib/ipcTests.js`) are — so
the store is modelled from spec section 4.1: a flat set of named markers
inside one base directory, created lazily by `send` or `once`; `send` is
idempotent (create-if-absent); `clearSignals` removes every marker. -/
structure Store where
  dirExists : Bool
  raised : List String
deriving Repr, DecidableEq

/-- Modelled from the spec: record `name` as raised (marker
create-if-absent), creating the store directory first if needed. -/
def raiseName (st : Store) (name : String) : Store :=
  { dirExists := true
    raised := if name ∈ st.raised then st.raised else st.raised ++ [name] }

/-- Modelled from the spec: `testSynchronous(name)` — the non-blocking
existence check. -/
def testSynchronous (st : Store) (name : String) : Bool :=
  name ∈ st.raised

/-- Modelled from the spec: `send(name)` (raise).  `dirFault`/`markerFault`
inject a filesystem failure (other than benign already-exists, which the
`none` path absorbs) from directory creation or marker creation; any such
failure propagates synchronously to the caller. -/
def send (st : Store) (name : String) (dirFault markerFault : Option String) :
    Except String Store :=
  match dirFault with
  | some m => Except.error m
  | none =>
    match markerFault with
    | some m => Except.error m
    | none => Except.ok (raiseName st name)

/-- Modelled from the spec: `clearSignals()` — remove every marker;
a failure of enumeration or removal (`fault`) propagates synchronously. -/
def clearSignals (st : Store) (fault : Option String) : Except String Store :=
  match fault with
  | some m => Except.error m
  | none => Except.ok { st with raised := [] }

/-- One outstanding `once(name)` waiter.  `resolveCount` counts how many
times its promise has been resolved (a promise resolves at most once). -/
structure Waiter where
  name : String
  resolveCount : Nat
deriving Repr, DecidableEq

/-- The store together with every outstanding waiter (possibly registered
from several processes). -/
structure World where
  store : Store
  waiters : List Waiter
deriving Repr, DecidableEq

/-- Modelled from the spec: `once(name)` — registers a waiter that resolves
the first time `name` is observed raised, immediately when it already is;
the initial existence check creates the store directory and, if it fails
(`checkFault`), the error surfaces as a rejected wait / synchronous throw. -/
def once (w : World) (name : String) (checkFault : Option String) :
    Except String World :=
  match checkFault with
  | some m => Except.error m
  | none =>
    Except.ok
      { store := { w.store with dirExists := true }
        waiters := w.waiters ++
          [⟨name, if testSynchronous w.store name then 1 else 0⟩] }

/-- Modelled from the spec: `send(name)` at the level of the whole world
(the store plus the registered waiters, which `send` itself leaves
untouched — they resolve on their next poll). -/
def sendW (w : World) (name : String) (dirFault markerFault : Option String) :
    Except String World :=
  match send w.store name dirFault markerFault with
  | Except.error m => Except.error m
  | Except.ok st => Except.ok { w with store := st }

/-- Modelled from the spec: one polling tick (reference interval ~100ms).
Every still-unresolved waiter whose name is now raised resolves, exactly
once; already-resolved waiters are untouched. -/
def pollTick (w : World) : World :=
  { w with
    waiters := w.waiters.map (fun wa =>
      if wa.resolveCount = 0 && testSynchronous w.store wa.name then
        { wa with resolveCount := 1 }
      else wa) }

end Ipc

namespace Onboard

/-- Modelled from the spec: the reserved generic-error signal name from the
shared registry `lib/signals.js` (not among the source files). -/
def CLOUD_LIBS_ERROR : String := "CLOUD_LIBS_ERROR"

/-- Modelled from the spec: the reserved onboarding done signal name from
the shared registry `lib/signals.js` (not among the source files). -/
def ONBOARD_DONE : String := "ONBOARD_DONE"

/-- JavaScript `a || b` on an optional string: the default wins when the
option is absent or falsy (the empty string). -/
def jsOrString (v : Option String) (dflt : String) : String :=
  match v with
  | some s => if s = "" then dflt else s
  | none => dflt

/-- The signal sent by onboard.js on the error path (line 1218):
`options.signal || signals.ONBOARD_DONE`. -/
def doneSignalName (optSignal : Option String) : String :=
  jsOrString optSignal ONBOARD_DONE

/-- The onboarding worker process: whether its main promise chain has run
to completion, whether it has exited, and the shared signal store. -/
structure Proc where
  finished : Bool
  exited : Bool
  store : Ipc.Store
deriving Repr, DecidableEq

/-- The handler onboard.js installs with `ipc.once(signals.CLOUD_LIBS_ERROR)`
(lines 1216-1220): when the generic error signal is observed, send
`options.signal || signals.ONBOARD_DONE` and exit via `util.logAndExit`. -/
def onCloudLibsError (optSignal : Option String) (p : Proc) : Proc :=
  { p with
    store := Ipc.raiseName p.store (doneSignalName optSignal)
    exited := true }

end Onboard

/-! ## Helper lemmas -/

namespace JsStr

theorem jsSplitWsGo_noWs (s : List Char) : ∀ (inRun : Bool) (acc : List Char),
    (∀ ch ∈ acc, jsIsWs ch = false) →
    ∀ t ∈ jsSplitWsGo inRun acc s, ∀ ch ∈ t, jsIsWs ch = false := by
  induction s with
  | nil =>
    intro inRun acc hacc t ht ch hch
    simp only [jsSplitWsGo, List.mem_singleton] at ht
    subst ht
    exact hacc ch (List.mem_reverse.mp hch)
  | cons c rest ih =>
    intro inRun acc hacc t ht ch hch
    cases hws : jsIsWs c with
    | true =>
      cases inRun with
      | true =>
        simp only [jsSplitWsGo, hws, eq_self_iff_true, if_true] at ht
        exact ih true acc hacc t ht ch hch
      | false =>
        simp only [jsSplitWsGo, hws, eq_self_iff_true, if_true, Bool.false_eq_true,
          if_false, List.mem_cons] at ht
        cases ht with
        | inl heq =>
          subst heq
          exact hacc ch (List.mem_reverse.mp hch)
        | inr hmem =>
          exact ih true [] (by simp) t hmem ch hch
    | false =>
      simp only [jsSplitWsGo, hws, Bool.false_eq_true, if_false] at ht
      refine ih false (c :: acc) ?_ t ht ch hch
      intro x hx
      cases List.mem_cons.mp hx with
      | inl heq => subst heq; exact hws
      | inr hmem => exact hacc x hmem

/-- Every piece produced by `jsSplitWs` is free of whitespace characters
(the split really does tokenize on whitespace). -/
theorem jsSplitWs_noWs (s : List Char) :
    ∀ t ∈ jsSplitWs s, ∀ ch ∈ t, jsIsWs ch = false :=
  jsSplitWsGo_noWs s false [] (by simp)

end JsStr

namespace RunScripts

open JsStr

theorem eraseIdx_append_len {α : Type} (l : List α) (a : α) :
    (l ++ [a]).eraseIdx l.length = l := by
  induction l with
  | nil => rfl
  | cons x xs ih => simp [List.eraseIdx, ih]

theorem get?_append_len {α : Type} (l : List α) (a : α) :
    (l ++ [a]).get? l.length = some a := by
  induction l with
  | nil => rfl
  | cons x xs ih => simp [ih]

/-- Resolving the last child (index `others.length`) when the retry
condition holds: identical re-spawn with `tryNum + 1`, outstanding count
net unchanged. -/
theorem step_retry (st : SupSt) (others : List Child) (c : Child) (k : Int)
    (sig : Option String)
    (hch : st.children = others ++ [c]) (hw : st.waiting = (others.length : ℤ) + 1)
    (hex : st.exited = none) (hk : k ≠ 0) (ht : c.tryNum < MAX_TRIES) :
    step true st (Event.childExit others.length (some k) sig) =
      { st with
        children := others ++ [⟨c.module, c.arrayArgs, c.stringArgs, c.tryNum + 1⟩]
        log := st.log ++
          [LogEvent.exitted c.module (some k) sig, LogEvent.badExitRetry c.module,
           LogEvent.spawning c.module (attemptArgs c.arrayArgs c.stringArgs)]
        spawnCount := st.spawnCount + 1
        waiting := st.waiting } := by
  have hkd : decide (k ≠ 0) = true := decide_eq_true hk
  have htd : decide (c.tryNum < MAX_TRIES) = true := decide_eq_true ht
  have hwne : ¬ (st.waiting + 1 - 1 = 0) := by rw [hw]; omega
  simp only [step, hex, Option.isSome_none, Bool.false_eq_true, if_false,
    onChildExit, hch, get?_append_len, eraseIdx_append_len, retryCond, hkd, htd,
    Bool.and_self, if_true, spawnScript, hwne]
  rw [show st.waiting + 1 - 1 = st.waiting by omega]
  simp [List.append_assoc]

/-- Resolving the last child (index `others.length`) when the retry
condition does not hold (`code` null, `code` zero, or attempt ceiling
reached): the child is removed, no fork happens, the outstanding count
drops by one, and the supervisor exits (with code 0) exactly when that
count reaches zero. -/
theorem step_resolve (st : SupSt) (others : List Child) (c : Child)
    (code : Option Int) (sig : Option String)
    (hch : st.children = others ++ [c]) (hex : st.exited = none)
    (hnr : retryCond code c.tryNum = false) :
    step true st (Event.childExit others.length code sig) =
      (fun st3 : SupSt =>
        if st3.waiting = 0 then
          { st3 with log := st3.log ++ [LogEvent.allExitted], exited := some 0 }
        else st3)
      { st with
        children := others
        log := st.log ++ [LogEvent.exitted c.module code sig]
        waiting := st.waiting - 1 } := by
  simp only [step, hex, Option.isSome_none, Bool.false_eq_true, if_false,
    onChildExit, hch, get?_append_len, eraseIdx_append_len, hnr,
    Bool.false_eq_true, if_false]

/-! ## Claims C1 and C2 -/

/-- C1 counterexample: one worker on its first attempt (attempt counter 1,
below the ceiling of 3) is killed by a signal, so its exit code is
null/unknown.  The claim predicts an identical re-spawn (a second fork, a
live child with attempt counter 2, supervisor still running); the code
(`code !== null && code !== 0 && tryNum < MAX_TRIES`, runScripts.js line
64) instead resolves the worker terminally: no second fork, no live child,
and — the cohort now being empty — the supervisor exits. -/
theorem c1_counterexample :
    (runTrace true (spawnScript initSt "cluster.js" none (some "--host h"))
        [Event.childExit 0 none (some "SIGKILL")]).spawnCount = 1
    ∧ (runTrace true (spawnScript initSt "cluster.js" none (some "--host h"))
        [Event.childExit 0 none (some "SIGKILL")]).children = []
    ∧ (runTrace true (spawnScript initSt "cluster.js" none (some "--host h"))
        [Event.childExit 0 none (some "SIGKILL")]).exited = some 0 := by
  decide

/-- C1 (amended): a worker whose attempt terminates with a null/unknown
exit code (killed by a signal) is never re-spawned, even when its attempt
counter is below the retry ceiling: the worker is resolved terminally (no
fork, child removed, outstanding count decremented).  Only a non-null,
non-zero exit code below the ceiling triggers the identical re-spawn with
the attempt counter incremented by one. -/
theorem c1_null_exit_not_retried (st : SupSt) (others : List Child) (c : Child)
    (sig : Option String) (k : Int)
    (hch : st.children = others ++ [c]) (hw : st.waiting = (others.length : ℤ) + 1)
    (hex : st.exited = none) (hk : k ≠ 0) (ht : c.tryNum < MAX_TRIES) :
    ((step true st (Event.childExit others.length none sig)).spawnCount = st.spawnCount
      ∧ (step true st (Event.childExit others.length none sig)).children = others
      ∧ (step true st (Event.childExit others.length none sig)).waiting = st.waiting - 1)
    ∧ ((step true st (Event.childExit others.length (some k) sig)).spawnCount
        = st.spawnCount + 1
      ∧ (step true st (Event.childExit others.length (some k) sig)).children =
          others ++ [⟨c.module, c.arrayArgs, c.stringArgs, c.tryNum + 1⟩]
      ∧ (step true st (Event.childExit others.length (some k) sig)).waiting = st.waiting) := by
  constructor
  · rw [step_resolve st others c none sig hch hex rfl]
    dsimp only
    split <;> exact ⟨rfl, rfl, rfl⟩
  · rw [step_retry st others c k sig hch hw hex hk ht]
    exact ⟨rfl, rfl, rfl⟩

/-- Witness for `c1_null_exit_not_retried` at a concrete cohort of one
worker killed by SIGKILL on its first attempt. -/
theorem c1_null_exit_not_retried_witness :
    (step true (spawnScript initSt "cluster.js" none (some "--host h"))
        (Event.childExit 0 none (some "SIGKILL"))).children = []
    ∧ (step true (spawnScript initSt "cluster.js" none (some "--host h"))
        (Event.childExit 0 none (some "SIGKILL"))).spawnCount = 1 :=
  let h := c1_null_exit_not_retried
    (spawnScript initSt "cluster.js" none (some "--host h"))
    [] ⟨"cluster.js", none, some "--host h", 1⟩ (some "SIGKILL") 1
    rfl (by decide) rfl (by decide) (by decide)
  ⟨h.1.2.1, h.1.1⟩

/-- C2: a worker that exits non-zero on all of its 3 attempts is forked
exactly 3 times; relative to the moment just before its final attempt
resolves, the outstanding count drops by exactly one (from
`others.length + 1` to `others.length`), and the rest of the cohort is
untouched. -/
theorem c2_retry_bound (others : List Child) (module : String)
    (aArgs : Option (List String)) (sArgs : Option String)
    (k1 k2 k3 : Int) (h1 : k1 ≠ 0) (h2 : k2 ≠ 0) (h3 : k3 ≠ 0) :
    (runTrace true (spawnScript ⟨(others.length : ℤ), others, [], 0, none⟩ module aArgs sArgs)
        [Event.childExit others.length (some k1) none,
         Event.childExit others.length (some k2) none,
         Event.childExit others.length (some k3) none]).spawnCount = 3
    ∧ (runTrace true (spawnScript ⟨(others.length : ℤ), others, [], 0, none⟩ module aArgs sArgs)
        [Event.childExit others.length (some k1) none,
         Event.childExit others.length (some k2) none]).waiting = (others.length : ℤ) + 1
    ∧ (runTrace true (spawnScript ⟨(others.length : ℤ), others, [], 0, none⟩ module aArgs sArgs)
        [Event.childExit others.length (some k1) none,
         Event.childExit others.length (some k2) none,
         Event.childExit others.length (some k3) none]).waiting = (others.length : ℤ)
    ∧ (runTrace true (spawnScript ⟨(others.length : ℤ), others, [], 0, none⟩ module aArgs sArgs)
        [Event.childExit others.length (some k1) none,
         Event.childExit others.length (some k2) none,
         Event.childExit others.length (some k3) none]).children = others := by
  have F1 := step_retry (spawnScript ⟨(others.length : ℤ), others, [], 0, none⟩ module aArgs sArgs)
    others ⟨module, aArgs, sArgs, 1⟩ k1 none rfl rfl rfl h1 (by simp [MAX_TRIES])
  have hch2 : (step true (spawnScript ⟨(others.length : ℤ), others, [], 0, none⟩ module aArgs sArgs)
      (Event.childExit others.length (some k1) none)).children
      = others ++ [⟨module, aArgs, sArgs, 2⟩] := by rw [F1]
  have hw2 : (step true (spawnScript ⟨(others.length : ℤ), others, [], 0, none⟩ module aArgs sArgs)
      (Event.childExit others.length (some k1) none)).waiting = (others.length : ℤ) + 1 := by
    rw [F1]; simp [spawnScript]
  have hex2 : (step true (spawnScript ⟨(others.length : ℤ), others, [], 0, none⟩ module aArgs sArgs)
      (Event.childExit others.length (some k1) none)).exited = none := by
    rw [F1]; simp [spawnScript]
  have F2 := step_retry _ others ⟨module, aArgs, sArgs, 2⟩ k2 none hch2 hw2 hex2 h2
    (by simp [MAX_TRIES])
  have hch3 : (step true (step true (spawnScript ⟨(others.length : ℤ), others, [], 0, none⟩
      module aArgs sArgs) (Event.childExit others.length (some k1) none))
      (Event.childExit others.length (some k2) none)).children
      = others ++ [⟨module, aArgs, sArgs, 3⟩] := by rw [F2]
  have hw3 : (step true (step true (spawnScript ⟨(others.length : ℤ), others, [], 0, none⟩
      module aArgs sArgs) (Event.childExit others.length (some k1) none))
      (Event.childExit others.length (some k2) none)).waiting = (others.length : ℤ) + 1 := by
    rw [F2]; exact hw2
  have hex3 : (step true (step true (spawnScript ⟨(others.length : ℤ), others, [], 0, none⟩
      module aArgs sArgs) (Event.childExit others.length (some k1) none))
      (Event.childExit others.length (some k2) none)).exited = none := by
    rw [F2]; exact hex2
  have hsc3 : (step true (step true (spawnScript ⟨(others.length : ℤ), others, [], 0, none⟩
      module aArgs sArgs) (Event.childExit others.length (some k1) none))
      (Event.childExit others.length (some k2) none)).spawnCount = 3 := by
    rw [F2, F1]; simp [spawnScript]
  have F3 := step_resolve _ others ⟨module, aArgs, sArgs, 3⟩ (some k3) none hch3 hex3
    (by simp [retryCond, MAX_TRIES])
  simp only [runTrace, List.foldl]
  refine ⟨?_, ?_, ?_, ?_⟩
  · rw [F3]; dsimp only; split <;> exact hsc3
  · rw [F2]; exact hw2
  · rw [F3]; dsimp only; split <;> (rw [hw3]; dsimp only; omega)
  · rw [F3]; dsimp only; split <;> rfl

/-- Witness for `c2_retry_bound`: a singleton cohort whose worker exits
with code 1 on all three attempts. -/
theorem c2_retry_bound_witness :
    (runTrace true (spawnScript ⟨0, [], [], 0, none⟩ "onboard.js" none (some "--host h"))
        [Event.childExit 0 (some 1) none, Event.childExit 0 (some 1) none,
         Event.childExit 0 (some 1) none]).spawnCount = 3 :=
  (c2_retry_bound [] "onboard.js" none (some "--host h") 1 1 1
    (by decide) (by decide) (by decide)).1

/-! ## Claim C3 -/

theorem step_of_exited (rs : Bool) (st : SupSt) (e : Event) (h : st.exited.isSome) :
    step rs st e = st := by
  simp [step, h]

theorem runTrace_of_exited (rs : Bool) (st : SupSt) (tr : List Event)
    (h : st.exited.isSome) : runTrace rs st tr = st := by
  induction tr with
  | nil => rfl
  | cons e es ih =>
    show runTrace rs (step rs st e) es = st
    rw [step_of_exited rs st e h]; exact ih

/-- The final `waiting`-zero check of the exit handler preserves the drain
invariant. -/
theorem invD_exitCheck (st3 : SupSt) (h1 : st3.waiting = (st3.children.length : ℤ))
    (h2 : st3.exited = none) :
    InvD (if st3.waiting = 0 then
            { st3 with log := st3.log ++ [LogEvent.allExitted], exited := some 0 }
          else st3) := by
  by_cases hz : st3.waiting = 0
  · rw [if_pos hz]
    refine ⟨h1, fun _ => ?_⟩
    have hz0 : (st3.children.length : ℤ) = 0 := by rw [← h1]; exact hz
    exact List.length_eq_zero.mp (by exact_mod_cast hz0)
  · rw [if_neg hz]
    exact ⟨h1, fun hs => by rw [h2] at hs; simp at hs⟩

theorem invD_step (st : SupSt) (e : Event) (he : e.isChildExit) (h : InvD st) :
    InvD (step true st e) := by
  obtain ⟨hw, hcl⟩ := h
  cases e with
  | reboot => exact absurd he (by simp [Event.isChildExit])
  | childExit i code sig =>
    by_cases hex : st.exited.isSome
    · rw [step_of_exited true st _ hex]; exact ⟨hw, hcl⟩
    · have hexn : st.exited = none := Option.not_isSome_iff_eq_none.mp hex
      simp only [step, hex, if_false]
      cases hget : st.children.get? i with
      | none => simp only [onChildExit, hget]; exact ⟨hw, hcl⟩
      | some c =>
        have hi : i < st.children.length := by
          by_contra hge
          rw [List.get?_eq_none.mpr (by omega)] at hget
          exact Option.noConfusion hget
        have hlen : (st.children.eraseIdx i).length + 1 = st.children.length :=
          List.length_eraseIdx_add_one hi
        simp only [onChildExit, hget]
        cases hr : retryCond code c.tryNum with
        | true =>
          simp only [hr, if_true, Bool.false_eq_true, if_false, spawnScript]
          refine invD_exitCheck
            ⟨st.waiting + 1 - 1,
             st.children.eraseIdx i ++ [⟨c.module, c.arrayArgs, c.stringArgs, c.tryNum + 1⟩],
             st.log ++ [LogEvent.exitted c.module code sig]
               ++ [LogEvent.badExitRetry c.module]
               ++ [LogEvent.spawning c.module (attemptArgs c.arrayArgs c.stringArgs)],
             st.spawnCount + 1, st.exited⟩ ?_ ?_
          · simp only [List.length_append, List.length_cons, List.length_nil]
            omega
          · exact hexn
        | false =>
          simp only [hr, Bool.false_eq_true, if_false]
          refine invD_exitCheck
            ⟨st.waiting - 1, st.children.eraseIdx i,
             st.log ++ [LogEvent.exitted c.module code sig],
             st.spawnCount, st.exited⟩ ?_ ?_
          · simp only []
            omega
          · exact hexn

theorem invD_runTrace (st : SupSt) (tr : List Event)
    (h : InvD st) (hce : ∀ e ∈ tr, e.isChildExit) : InvD (runTrace true st tr) := by
  induction tr generalizing st with
  | nil => exact h
  | cons e es ih =>
    show InvD (runTrace true (step true st e) es)
    exact ih (step true st e) (invD_step st e (hce e (by simp)) h)
      (fun x hx => hce x (by simp [hx]))

/-- C3: driven by child-exit notifications alone (no reboot observation),
the supervisor (1) has an empty cohort and a zero outstanding count
whenever it has exited — it never exits while a worker, including a
pending retry of a failed worker, is live; (2) at every point of the run,
while any worker is live it has not exited; and (3) once it has exited,
the rest of the run changes nothing (the `process.exit()` happens exactly
once, at the dispatch that drained the cohort). -/
theorem c3_drain_to_exit (st0 : SupSt) (tr : List Event)
    (h0 : InvD st0) (hce : ∀ e ∈ tr, e.isChildExit) :
    ((runTrace true st0 tr).exited.isSome →
      (runTrace true st0 tr).children = [] ∧ (runTrace true st0 tr).waiting = 0)
    ∧ (∀ p q : List Event, tr = p ++ q →
        (runTrace true st0 p).children ≠ [] → (runTrace true st0 p).exited = none)
    ∧ (∀ p q : List Event, tr = p ++ q → (runTrace true st0 p).exited.isSome →
        runTrace true st0 tr = runTrace true st0 p) := by
  refine ⟨?_, ?_, ?_⟩
  · intro hs
    obtain ⟨hw, hcl⟩ := invD_runTrace st0 tr h0 hce
    refine ⟨hcl hs, ?_⟩
    rw [hw, hcl hs]; rfl
  · intro p q hpq hne
    obtain ⟨hw, hcl⟩ := invD_runTrace st0 p h0
      (fun e he => hce e (by rw [hpq]; exact List.mem_append_left q he))
    cases hp : (runTrace true st0 p).exited with
    | none => rfl
    | some v => exact absurd (hcl (by rw [hp]; rfl)) hne
  · intro p q hpq hs
    rw [hpq, runTrace, List.foldl_append]
    exact runTrace_of_exited true (runTrace true st0 p) q hs

/-- Witness for `c3_drain_to_exit`: the spec's drain-to-exit cohort of
three workers — two succeed on their first attempt, the third fails once
and succeeds on its second attempt; the supervisor exits exactly at the
final resolution, with the cohort empty. -/
theorem c3_drain_to_exit_witness :
    ((runTrace true
        (spawnScript (spawnScript (spawnScript initSt "onboard.js" none none)
          "cluster.js" none none) "runScript.js" (some ["--foo"]) none)
        [Event.childExit 0 (some 0) none, Event.childExit 0 (some 0) none,
         Event.childExit 0 (some 1) none, Event.childExit 0 (some 0) none]).exited
      = some 0)
    ∧ ((runTrace true
        (spawnScript (spawnScript (spawnScript initSt "onboard.js" none none)
          "cluster.js" none none) "runScript.js" (some ["--foo"]) none)
        [Event.childExit 0 (some 0) none, Event.childExit 0 (some 0) none,
         Event.childExit 0 (some 1) none, Event.childExit 0 (some 0) none]).children = []
      ∧ (runTrace true
        (spawnScript (spawnScript (spawnScript initSt "onboard.js" none none)
          "cluster.js" none none) "runScript.js" (some ["--foo"]) none)
        [Event.childExit 0 (some 0) none, Event.childExit 0 (some 0) none,
         Event.childExit 0 (some 1) none, Event.childExit 0 (some 0) none]).waiting = 0) :=
  ⟨by decide,
   (c3_drain_to_exit
      (spawnScript (spawnScript (spawnScript initSt "onboard.js" none none)
        "cluster.js" none none) "runScript.js" (some ["--foo"]) none)
      [Event.childExit 0 (some 0) none, Event.childExit 0 (some 0) none,
       Event.childExit 0 (some 1) none, Event.childExit 0 (some 0) none]
      (by decide) (by decide)).1 (by decide)⟩

/-! ## Claims C4 and C5 -/

/-- C4: on every `run` invocation whose spawning phase completes (the
`--script` loop did not throw), exactly one subscription to the REBOOT
signal is made (`ipc.once('REBOOT')`, runScripts.js line 234); and
whenever the installed handler observes the signal while the process is
still alive, the supervisor terminates immediately — whatever the
outstanding count and the live children are. -/
theorem c4_reboot_short_circuit :
    (∀ (argv : List String) (st : SupSt) (subs : Nat),
      runModel argv = some (st, subs) → subs = 1)
    ∧ (∀ st : SupSt, st.exited = none →
        step true st Event.reboot =
          { st with log := st.log ++ [LogEvent.rebootExit], exited := some 0 }) := by
  constructor
  · intro argv st subs h
    simp only [runModel] at h
    split at h
    · split at h
      · exact Option.noConfusion h
      · rw [Option.some_inj] at h
        exact (congrArg Prod.snd h).symm
    · rw [Option.some_inj] at h
      exact (congrArg Prod.snd h).symm
  · intro st hex
    simp [step, hex, onReboot]

/-- Witness for `c4_reboot_short_circuit`: a `run` with one `--script`
worker subscribes once, and a supervisor with two workers still
outstanding terminates the moment REBOOT is observed. -/
theorem c4_reboot_short_circuit_witness :
    (∃ st : SupSt, runModel ["node", "runScripts.js", "--script", "foo --bar"] = some (st, 1))
    ∧ (step true ⟨2, [⟨"onboard.js", none, none, 1⟩, ⟨"cluster.js", none, none, 1⟩],
        [], 2, none⟩ Event.reboot).exited = some 0 := by
  constructor
  · obtain ⟨stv, subs, hv⟩ :
        ∃ st subs, runModel ["node", "runScripts.js", "--script", "foo --bar"]
          = some (st, subs) := ⟨_, _, rfl⟩
    have h1 := c4_reboot_short_circuit.1 ["node", "runScripts.js", "--script", "foo --bar"]
      stv subs hv
    rw [h1] at hv
    exact ⟨stv, hv⟩
  · rw [c4_reboot_short_circuit.2
      ⟨2, [⟨"onboard.js", none, none, 1⟩, ⟨"cluster.js", none, none, 1⟩], [], 2, none⟩ rfl]

/-- C5 counterexample: a cohort of two workers, one succeeding and one
exhausting its three attempts with exit code 2.  The claim says the
top-level supervising process then exits with a non-zero exit code; in the
code the exit is `process.exit()` at runScripts.js line 73, so the
supervisor exits with code 0 (and the only log lines the failed worker
ever gets are the per-exit verbose line and the per-retry info line — no
dedicated give-up message exists in the code). -/
theorem c5_counterexample :
    (runTrace true
        (spawnScript (spawnScript initSt "runScript.js" (some ["good"]) none)
          "runScript.js" (some ["bad"]) none)
        [Event.childExit 1 (some 2) none, Event.childExit 1 (some 2) none,
         Event.childExit 1 (some 2) none, Event.childExit 0 (some 0) none]).exited = some 0
    ∧ (∀ k : ℤ,
        (runTrace true
          (spawnScript (spawnScript initSt "runScript.js" (some ["good"]) none)
            "runScript.js" (some ["bad"]) none)
          [Event.childExit 1 (some 2) none, Event.childExit 1 (some 2) none,
           Event.childExit 1 (some 2) none, Event.childExit 0 (some 0) none]).exited = some k
          → k = 0) := by
  have h : (runTrace true
      (spawnScript (spawnScript initSt "runScript.js" (some ["good"]) none)
        "runScript.js" (some ["bad"]) none)
      [Event.childExit 1 (some 2) none, Event.childExit 1 (some 2) none,
       Event.childExit 1 (some 2) none, Event.childExit 0 (some 0) none]).exited = some 0 := by
    decide
  exact ⟨h, fun k hk => by rw [h] at hk; exact (Option.some_inj.mp hk).symm⟩

/-- C5 (amended): when a worker reaches the retry ceiling with a failing
exit code the supervisor gives up on it — no further fork — removes it
from the cohort (sibling workers are untouched), decrements the
outstanding count, and logs only the generic per-exit line naming the
worker's module and exit code; the supervisor itself, when the cohort
subsequently drains, exits with code 0, never with a non-zero code. -/
theorem c5_giveup_behaviour (st : SupSt) (others : List Child) (c : Child)
    (k : Int) (sig : Option String)
    (hch : st.children = others ++ [c]) (hex : st.exited = none)
    (ht : ¬ c.tryNum < MAX_TRIES) :
    (step true st (Event.childExit others.length (some k) sig)).spawnCount = st.spawnCount
    ∧ (step true st (Event.childExit others.length (some k) sig)).children = others
    ∧ (step true st (Event.childExit others.length (some k) sig)).waiting = st.waiting - 1
    ∧ LogEvent.exitted c.module (some k) sig
        ∈ (step true st (Event.childExit others.length (some k) sig)).log
    ∧ ((step true st (Event.childExit others.length (some k) sig)).exited = none
        ∨ (step true st (Event.childExit others.length (some k) sig)).exited = some 0) := by
  have hnr : retryCond (some k) c.tryNum = false := by
    simp [retryCond, ht]
  rw [step_resolve st others c (some k) sig hch hex hnr]
  dsimp only
  split
  · exact ⟨rfl, rfl, rfl, by simp, Or.inr rfl⟩
  · exact ⟨rfl, rfl, rfl, by simp, Or.inl hex⟩

/-- C6: tokenization of one `--script` argument string (runScripts.js
lines 194-224 feeding `spawnScript("runScript.js", args)`).  When the
string has no `--cl-args` token it is split on whitespace, exactly
`split(/\s+/)`; when it has one, the first element of the worker's
argument list is the `--cl-args` token, the second is the single-quoted
value following it, passed through as one opaque entry (unsplit, whatever
whitespace it contains), and every remaining entry is a whitespace-free
token of the rest of the string. -/
theorem c6_script_tokenization (s : List Char) :
    (jsIndexOf s clArgsTok 0 = -1 →
      parseScriptArgs s = jsSplitWs s
      ∧ ∀ t ∈ parseScriptArgs s, ∀ ch ∈ t, jsIsWs ch = false)
    ∧ (jsIndexOf s clArgsTok 0 ≠ -1 →
      (parseScriptArgs s).get? 0 = some clArgsTok
      ∧ (parseScriptArgs s).get? 1 =
          some (jsSubstring s (jsIndexOf s [squote] (jsIndexOf s clArgsTok 0) + 1)
            (jsIndexOf s [squote]
              (jsIndexOf s [squote] (jsIndexOf s clArgsTok 0) + 1)))
      ∧ ∀ t ∈ (parseScriptArgs s).drop 2, ∀ ch ∈ t, jsIsWs ch = false) := by
  constructor
  · intro h
    have hne : ¬ (jsIndexOf s clArgsTok 0 ≠ -1) := by simp [h]
    have hps : parseScriptArgs s = jsSplitWs s := by
      simp only [parseScriptArgs, hne, if_false]
    exact ⟨hps, fun t ht => jsSplitWs_noWs s t (hps ▸ ht)⟩
  · intro h
    have hps : parseScriptArgs s =
        clArgsTok ::
          jsSubstring s (jsIndexOf s [squote] (jsIndexOf s clArgsTok 0) + 1)
            (jsIndexOf s [squote]
              (jsIndexOf s [squote] (jsIndexOf s clArgsTok 0) + 1)) ::
          ((if jsIndexOf s clArgsTok 0 > 0 then
              jsSplitWs (jsTrim (jsSubstring s 0 (jsIndexOf s clArgsTok 0)))
            else []) ++
           (if jsIndexOf s [squote]
                (jsIndexOf s [squote] (jsIndexOf s clArgsTok 0) + 1)
                < (s.length : Int) - 1 then
              jsSplitWs (jsTrim (jsSubstring s
                (jsIndexOf s [squote]
                  (jsIndexOf s [squote] (jsIndexOf s clArgsTok 0) + 1) + 1)
                s.length))
            else [])) := by
      simp only [parseScriptArgs, h, ne_eq, not_false_iff, if_true]
    refine ⟨by rw [hps]; rfl, by rw [hps]; rfl, ?_⟩
    intro t ht ch hch
    rw [hps] at ht
    simp only [List.drop_succ_cons, List.drop_zero] at ht
    cases List.mem_append.mp ht with
    | inl h1 =>
      by_cases hc : jsIndexOf s clArgsTok 0 > 0
      · rw [if_pos hc] at h1
        exact jsSplitWs_noWs _ t h1 ch hch
      · rw [if_neg hc] at h1
        exact absurd h1 (List.not_mem_nil t)
    | inr h2 =>
      by_cases hc : jsIndexOf s [squote]
          (jsIndexOf s [squote] (jsIndexOf s clArgsTok 0) + 1) < (s.length : Int) - 1
      · rw [if_pos hc] at h2
        exact jsSplitWs_noWs _ t h2 ch hch
      · rw [if_neg hc] at h2
        exact absurd h2 (List.not_mem_nil t)

/-- Witness for `c6_script_tokenization`: a plain string splits on
whitespace, and in a string with `--cl-args` the single-quoted value
`a b c` comes through as the worker's second argument in one piece. -/
theorem c6_script_tokenization_witness :
    (parseScriptArgs "run.js --verbose".data = jsSplitWs "run.js --verbose".data)
    ∧ (parseScriptArgs
        ("run.js --cl-args ".data ++ [squote] ++ "a b c".data ++ [squote] ++ " -x".data)).get? 1
      = some ("a b c".data) := by
  constructor
  · exact ((c6_script_tokenization "run.js --verbose".data).1 (by decide)).1
  · have h := ((c6_script_tokenization
      ("run.js --cl-args ".data ++ [squote] ++ "a b c".data ++ [squote] ++ " -x".data)).2
      (by decide)).2.1
    rw [h]
    decide

/-- Witness for `c5_giveup_behaviour`: a worker on its third attempt,
next to one still-outstanding sibling, exits with code 2. -/
theorem c5_giveup_behaviour_witness :
    (step true ⟨2, [⟨"runScript.js", some ["good"], none, 1⟩,
        ⟨"runScript.js", some ["bad"], none, 3⟩], [], 4, none⟩
      (Event.childExit 1 (some 2) none)).spawnCount = 4
    ∧ (step true ⟨2, [⟨"runScript.js", some ["good"], none, 1⟩,
        ⟨"runScript.js", some ["bad"], none, 3⟩], [], 4, none⟩
      (Event.childExit 1 (some 2) none)).children
      = [⟨"runScript.js", some ["good"], none, 1⟩] :=
  let h := c5_giveup_behaviour
    ⟨2, [⟨"runScript.js", some ["good"], none, 1⟩,
        ⟨"runScript.js", some ["bad"], none, 3⟩], [], 4, none⟩
    [⟨"runScript.js", some ["good"], none, 1⟩]
    ⟨"runScript.js", some ["bad"], none, 3⟩ 2 none rfl rfl (by decide)
  ⟨h.1, h.2.1⟩

end RunScripts

/-! ## Claims C7, C8, C9 (Signal Store, modelled from the spec) -/

namespace Ipc

theorem get?_pair_fst {α : Type} (l : List α) (a b : α) :
    ((l ++ [a]) ++ [b]).get? l.length = some a := by
  rw [List.get?_append (by simp)]
  exact RunScripts.get?_append_len l a

theorem get?_pair_snd {α : Type} (l : List α) (a b : α) :
    ((l ++ [a]) ++ [b]).get? (l.length + 1) = some b := by
  have : (l ++ [a]).length = l.length + 1 := by simp
  rw [← this]
  exact RunScripts.get?_append_len (l ++ [a]) b

theorem pollTick_keeps (w : World) (i : Nat) (name : String)
    (h : w.waiters.get? i = some ⟨name, 1⟩) :
    ∀ k, (pollTick^[k] w).waiters.get? i = some ⟨name, 1⟩ := by
  intro k
  induction k generalizing w with
  | zero => exact h
  | succ n ih =>
    rw [Function.iterate_succ_apply]
    refine ih (pollTick w) ?_
    have h' : w.waiters[i]? = some ⟨name, 1⟩ := by
      rw [← List.get?_eq_getElem?]; exact h
    simp only [pollTick, List.get?_map, List.get?_eq_getElem?]
    simp [h']

theorem pollTick_resolves (w : World) (i : Nat) (name : String)
    (hname : testSynchronous w.store name = true)
    (hget : w.waiters.get? i = some ⟨name, 0⟩) :
    ∀ k, 1 ≤ k → (pollTick^[k] w).waiters.get? i = some ⟨name, 1⟩ := by
  intro k hk
  cases k with
  | zero => omega
  | succ n =>
    rw [Function.iterate_succ_apply]
    refine pollTick_keeps (pollTick w) i name ?_ n
    have h' : w.waiters[i]? = some ⟨name, 0⟩ := by
      rw [← List.get?_eq_getElem?]; exact hget
    simp only [pollTick, List.get?_map, List.get?_eq_getElem?]
    simp [h', hname]

/-- C7: for a name not yet raised, two independently registered `once`
waiters both resolve — each exactly once — after the single raise of that
name reaches them (on every poll from the first one on, each waiter's
resolution count is exactly 1: raising once satisfies all outstanding
waiters, broadcast rather than single-consumer). -/
theorem c7_broadcast (w : World) (name : String)
    (h : testSynchronous w.store name = false) :
    ∀ w1 w2 w3 : World,
      once w name none = Except.ok w1 →
      once w1 name none = Except.ok w2 →
      sendW w2 name none none = Except.ok w3 →
      ∀ k : Nat, 1 ≤ k →
        (pollTick^[k] w3).waiters.get? w.waiters.length = some ⟨name, 1⟩
        ∧ (pollTick^[k] w3).waiters.get? (w.waiters.length + 1) = some ⟨name, 1⟩ := by
  intro w1 w2 w3 h1 h2 h3 k hk
  simp only [once, h, Bool.false_eq_true, if_false] at h1
  injection h1 with h1
  subst h1
  have h' : testSynchronous
      ({ dirExists := true, raised := w.store.raised } : Store) name = false := h
  simp only [once, h', Bool.false_eq_true, if_false] at h2
  injection h2 with h2
  subst h2
  simp only [sendW, send, raiseName] at h3
  injection h3 with h3
  subst h3
  have hnotmem : ¬ name ∈ w.store.raised := by
    simpa [testSynchronous] using h
  constructor
  · refine pollTick_resolves _ _ name ?_ ?_ k hk
    · simp [testSynchronous, hnotmem]
    · exact get?_pair_fst w.waiters _ _
  · refine pollTick_resolves _ _ name ?_ ?_ k hk
    · simp [testSynchronous, hnotmem]
    · exact get?_pair_snd w.waiters _ _

/-- Witness for `c7_broadcast`: an empty store, two waiters for `foo`,
one raise, one poll: both waiters at resolution count exactly 1. -/
theorem c7_broadcast_witness :
    (pollTick^[1] (⟨⟨true, ["foo"]⟩, [⟨"foo", 0⟩, ⟨"foo", 0⟩]⟩ : World)).waiters.get? 0
      = some ⟨"foo", 1⟩
    ∧ (pollTick^[1] (⟨⟨true, ["foo"]⟩, [⟨"foo", 0⟩, ⟨"foo", 0⟩]⟩ : World)).waiters.get? 1
      = some ⟨"foo", 1⟩ :=
  c7_broadcast ⟨⟨false, []⟩, []⟩ "foo" (by decide)
    ⟨⟨true, []⟩, [⟨"foo", 0⟩]⟩
    ⟨⟨true, []⟩, [⟨"foo", 0⟩, ⟨"foo", 0⟩]⟩
    ⟨⟨true, ["foo"]⟩, [⟨"foo", 0⟩, ⟨"foo", 0⟩]⟩
    rfl rfl rfl 1 (by decide)

/-- C8: raising a name twice in a row is observably the raise of it once:
the second raise is a complete no-op on the whole world (store and
waiters), `testSynchronous` is true after either, and an outstanding
waiter for the name resolves exactly once (resolution count 1 on every
poll from the first one after either raise). -/
theorem c8_idempotent_raise (w : World) (name : String) :
    ∀ w1 w2 : World,
      sendW w name none none = Except.ok w1 →
      sendW w1 name none none = Except.ok w2 →
      w2 = w1
      ∧ testSynchronous w1.store name = true
      ∧ testSynchronous w2.store name = true
      ∧ (∀ i : Nat, w.waiters.get? i = some ⟨name, 0⟩ →
          ∀ k, 1 ≤ k →
            (pollTick^[k] w1).waiters.get? i = some ⟨name, 1⟩
            ∧ (pollTick^[k] w2).waiters.get? i = some ⟨name, 1⟩) := by
  intro w1 w2 h1 h2
  simp only [sendW, send, raiseName] at h1 h2
  injection h1 with h1
  subst h1
  injection h2 with h2
  subst h2
  have hmem1 : testSynchronous
      ({ dirExists := true,
         raised := if name ∈ w.store.raised then w.store.raised
                   else w.store.raised ++ [name] } : Store) name = true := by
    by_cases hmem : name ∈ w.store.raised <;> simp [testSynchronous, hmem]
  refine ⟨?_, hmem1, ?_, ?_⟩
  · have : (if name ∈ (if name ∈ w.store.raised then w.store.raised
        else w.store.raised ++ [name]) then
          (if name ∈ w.store.raised then w.store.raised else w.store.raised ++ [name])
        else (if name ∈ w.store.raised then w.store.raised
          else w.store.raised ++ [name]) ++ [name])
        = (if name ∈ w.store.raised then w.store.raised
           else w.store.raised ++ [name]) := by
      by_cases hmem : name ∈ w.store.raised <;> simp [hmem]
    simp [this]
  · have : (if name ∈ (if name ∈ w.store.raised then w.store.raised
        else w.store.raised ++ [name]) then
          (if name ∈ w.store.raised then w.store.raised else w.store.raised ++ [name])
        else (if name ∈ w.store.raised then w.store.raised
          else w.store.raised ++ [name]) ++ [name])
        = (if name ∈ w.store.raised then w.store.raised
           else w.store.raised ++ [name]) := by
      by_cases hmem : name ∈ w.store.raised <;> simp [hmem]
    simpa [testSynchronous, this] using hmem1
  · intro i hi k hk
    constructor
    · refine pollTick_resolves _ i name ?_ ?_ k hk
      · exact hmem1
      · exact hi
    · refine pollTick_resolves _ i name ?_ ?_ k hk
      · by_cases hmem : name ∈ w.store.raised <;> simp [testSynchronous, hmem]
      · exact hi

/-- Witness for `c8_idempotent_raise`: raising `foo` twice over a store
holding one outstanding waiter for `foo`: the store observably holds
`foo`, and the waiter resolves exactly once. -/
theorem c8_idempotent_raise_witness :
    testSynchronous (⟨true, ["foo"]⟩ : Store) "foo" = true
    ∧ (pollTick^[1] (⟨⟨true, ["foo"]⟩, [⟨"foo", 0⟩]⟩ : World)).waiters.get? 0
      = some ⟨"foo", 1⟩ :=
  let h := c8_idempotent_raise ⟨⟨false, []⟩, [⟨"foo", 0⟩]⟩ "foo"
    ⟨⟨true, ["foo"]⟩, [⟨"foo", 0⟩]⟩ ⟨⟨true, ["foo"]⟩, [⟨"foo", 0⟩]⟩
    rfl rfl
  ⟨h.2.1, (h.2.2.2 0 rfl 1 (by decide)).2⟩

/-- C9: a filesystem failure that is not a benign already-exists /
already-absent outcome is never swallowed: it surfaces synchronously from
`send` (whether directory or marker creation failed) and from
`clearSignals`, and as a rejected wait from `once`. -/
theorem c9_error_propagation (w : World) (st : Store) (name m : String) :
    send st name (some m) none = Except.error m
    ∧ send st name none (some m) = Except.error m
    ∧ clearSignals st (some m) = Except.error m
    ∧ once w name (some m) = Except.error m
    ∧ sendW w name (some m) none = Except.error m
    ∧ sendW w name none (some m) = Except.error m :=
  ⟨rfl, rfl, rfl, rfl, rfl, rfl⟩

end Ipc

/-! ## Claim C10 (onboard.js error-signal handler) -/

namespace Onboard

/-- C10: whenever another script raises the generic error signal before
the onboarding worker has finished, the installed handler (onboard.js
lines 1216-1220) raises the worker's own done signal — the `--signal`
option value when it is a non-empty string, `ONBOARD_DONE` otherwise —
and exits; the workflow is still unfinished at that point, so observing
the onboard done signal does not imply the onboarding workflow completed
successfully. -/
theorem c10_error_raises_done (optSignal : Option String) (p : Proc)
    (hfin : p.finished = false)
    (herr : Ipc.testSynchronous p.store CLOUD_LIBS_ERROR = true) :
    Ipc.testSynchronous (onCloudLibsError optSignal p).store
        (doneSignalName optSignal) = true
    ∧ (onCloudLibsError optSignal p).exited = true
    ∧ (onCloudLibsError optSignal p).finished = false := by
  refine ⟨?_, rfl, hfin⟩
  by_cases hmem : doneSignalName optSignal ∈ p.store.raised <;>
    simp [onCloudLibsError, Ipc.raiseName, Ipc.testSynchronous, hmem]

/-- Witness for `c10_error_raises_done`: a run with no `--signal` option
where another script has raised `CLOUD_LIBS_ERROR` mid-workflow: the
worker raises `ONBOARD_DONE` and exits unfinished. -/
theorem c10_error_raises_done_witness :
    Ipc.testSynchronous
        (onCloudLibsError none ⟨false, false, ⟨true, [CLOUD_LIBS_ERROR]⟩⟩).store
        ONBOARD_DONE = true
    ∧ (onCloudLibsError none ⟨false, false, ⟨true, [CLOUD_LIBS_ERROR]⟩⟩).exited = true
    ∧ (onCloudLibsError none ⟨false, false, ⟨true, [CLOUD_LIBS_ERROR]⟩⟩).finished = false :=
  c10_error_raises_done none ⟨false, false, ⟨true, [CLOUD_LIBS_ERROR]⟩⟩
    rfl (by decide)

end Onboard
